import Mathlib

/-!
Shallow embedding of the two components of the repository:
  - `DataProject.black_scholes` from `dataproject/dataproject.py`
  - `ExchangeEconomyClass` from `inauguralproject/ExchangeEconomy.py`
Machine floats are modelled by real numbers.  Python's `/`, which raises
`ZeroDivisionError` on a zero denominator, is modelled by `pydiv` returning
`Except`; the abstract error kinds of the design (`InvalidArgument`,
`OptimizationFailed`) form `EconError`.  Calls into the external scipy
optimizer are modelled by passing the solver's reported result
(`success` flag, argmin `x`, objective value) as an explicit argument, and
each method's post-processing of that result is translated from the source.
-/

noncomputable section

open Real MeasureTheory Set

/-- Error kinds: `invalidArgument` covers bad arguments (including
Python's `ZeroDivisionError` on a zero price or a bad `option_type`),
`optimizationFailed` covers a solver reporting non-convergence, and
`typeError` is Python's `TypeError`, raised when a complex number produced
by `**` on a negative base reaches a float comparison. -/
inductive EconError where
  | invalidArgument
  | optimizationFailed
  | typeError
deriving DecidableEq

/-- Python float division: raises (here: returns an error) when the
denominator is zero, otherwise returns the quotient. -/
def pydiv (a b : ℝ) : Except EconError ℝ :=
  if b = 0 then .error .invalidArgument else .ok (a / b)

lemma except_ok_bind {α β : Type} (a : α) (f : α → Except EconError β) :
    (Except.ok a >>= f : Except EconError β) = f a := rfl

lemma except_error_bind {α β : Type} (e : EconError) (f : α → Except EconError β) :
    (Except.error e >>= f : Except EconError β) = .error e := rfl

/-! ### PricingHelper: `DataProject.black_scholes` -/

/-- The standard normal cumulative distribution function, modelling
`scipy.stats.norm.cdf`. -/
def stdNormalCDF (x : ℝ) : ℝ :=
  (Real.sqrt (2 * π))⁻¹ * ∫ t in Iic x, Real.exp (-(1 / 2) * t ^ 2)

/-- `DataProject.black_scholes(S, K, r, sigma, T, option_type)`, translated
from the source; `Phi` is the injected normal CDF (`norm.cdf` in the
source).  Computes `d1` and `d2`, then branches on `option_type`, raising
`ValueError` (modelled as `invalidArgument`) on any other type. -/
def black_scholes (Phi : ℝ → ℝ) (S K r sigma T : ℝ) (optionType : String) :
    Except EconError ℝ :=
  let d1 := (Real.log (S / K) + (r + 0.5 * sigma ^ 2) * T) / (sigma * Real.sqrt T)
  let d2 := d1 - sigma * Real.sqrt T
  if optionType = "call" then
    .ok (S * Phi d1 - K * Real.exp (-r * T) * Phi d2)
  else if optionType = "put" then
    .ok (K * Real.exp (-r * T) * Phi (-d2) - S * Phi (-d1))
  else
    .error .invalidArgument

lemma gauss_integrable : Integrable fun t : ℝ => Real.exp (-(1 / 2) * t ^ 2) :=
  integrable_exp_neg_mul_sq (by norm_num)

lemma gauss_total : (∫ t : ℝ, Real.exp (-(1 / 2) * t ^ 2)) = Real.sqrt (2 * π) := by
  rw [integral_gaussian]
  rw [show π / (1 / 2) = 2 * π by ring]

/-- Reflection symmetry of the standard normal CDF. -/
lemma stdNormalCDF_neg_add (x : ℝ) : stdNormalCDF (-x) + stdNormalCDF x = 1 := by
  have hrefl : (∫ t in Iic (-x), Real.exp (-(1 / 2) * t ^ 2))
      = ∫ t in Ioi x, Real.exp (-(1 / 2) * t ^ 2) := by
    have h := integral_comp_neg_Iic (-x) fun t : ℝ => Real.exp (-(1 / 2) * t ^ 2)
    simp only [neg_neg] at h
    rw [← h]
    congr 1
    funext t
    ring_nf
  have hsplit : (∫ t in Iic x, Real.exp (-(1 / 2) * t ^ 2))
      + (∫ t in Ioi x, Real.exp (-(1 / 2) * t ^ 2))
      = ∫ t : ℝ, Real.exp (-(1 / 2) * t ^ 2) :=
    intervalIntegral.integral_Iic_add_Ioi gauss_integrable.integrableOn
      gauss_integrable.integrableOn
  have hpos : (0 : ℝ) < Real.sqrt (2 * π) :=
    Real.sqrt_pos.mpr (by positivity)
  unfold stdNormalCDF
  rw [hrefl, ← mul_add, add_comm, hsplit, gauss_total, inv_mul_cancel₀ (ne_of_gt hpos)]

lemma stdNormalCDF_neg (x : ℝ) : stdNormalCDF (-x) = 1 - stdNormalCDF x := by
  have h := stdNormalCDF_neg_add x
  linarith

/-! ### ExchangeEconomy: `ExchangeEconomyClass` -/

/-- The parameter record `self.par` of `ExchangeEconomyClass`. -/
structure EconPar where
  alpha : ℝ
  beta : ℝ
  w1A : ℝ
  w2A : ℝ
  p2 : ℝ

/-- The constructor `ExchangeEconomyClass(w1A, w2A)`:
`SimpleNamespace(alpha=1/3, beta=2/3, w1A=w1A, w2A=w2A, p2=1)`. -/
def mkEcon (w1A w2A : ℝ) : EconPar :=
  { alpha := 1 / 3, beta := 2 / 3, w1A := w1A, w2A := w2A, p2 := 1 }

/-- `utility_A(x1A, x2A) = x1A ** alpha * x2A ** (1 - alpha)`, with `**`
modelled by `Real.rpow`, which agrees with Python's float `**` whenever
the bases are non-negative.  (For a negative base with a non-integral
exponent Python instead produces a complex number; `pypow` and
`utility_A_py` below model that path where it is reachable, in the
discrete maximization loop.) -/
def utility_A (par : EconPar) (x1 x2 : ℝ) : ℝ :=
  x1 ^ par.alpha * x2 ^ (1 - par.alpha)

/-- `utility_B(x1B, x2B) = x1B ** beta * x2B ** (1 - beta)`. -/
def utility_B (par : EconPar) (x1 x2 : ℝ) : ℝ :=
  x1 ^ par.beta * x2 ^ (1 - par.beta)

/-- `demand_A(p1)`: `income_A = w1A*p1 + w2A*p2`;
`x1A_star = alpha * (income_A / p1)`; `x2A_star = (1-alpha) * (income_A / p2)`.
The two Python divisions are fallible. -/
def demand_A (par : EconPar) (p1 : ℝ) : Except EconError (ℝ × ℝ) := do
  let incomeA := par.w1A * p1 + par.w2A * par.p2
  let q1 ← pydiv incomeA p1
  let q2 ← pydiv incomeA par.p2
  .ok (par.alpha * q1, (1 - par.alpha) * q2)

/-- `demand_B(p1)`: symmetric, with endowments `(1-w1A, 1-w2A)` and
exponent `beta`. -/
def demand_B (par : EconPar) (p1 : ℝ) : Except EconError (ℝ × ℝ) := do
  let incomeB := (1 - par.w1A) * p1 + (1 - par.w2A) * par.p2
  let q1 ← pydiv incomeB p1
  let q2 ← pydiv incomeB par.p2
  .ok (par.beta * q1, (1 - par.beta) * q2)

/-- The value `demand_A` returns on non-zero denominators. -/
def demandAval (par : EconPar) (p1 : ℝ) : ℝ × ℝ :=
  (par.alpha * ((par.w1A * p1 + par.w2A * par.p2) / p1),
   (1 - par.alpha) * ((par.w1A * p1 + par.w2A * par.p2) / par.p2))

/-- The value `demand_B` returns on non-zero denominators. -/
def demandBval (par : EconPar) (p1 : ℝ) : ℝ × ℝ :=
  (par.beta * (((1 - par.w1A) * p1 + (1 - par.w2A) * par.p2) / p1),
   (1 - par.beta) * (((1 - par.w1A) * p1 + (1 - par.w2A) * par.p2) / par.p2))

lemma demand_A_ok (par : EconPar) (p1 : ℝ) (hp : p1 ≠ 0) (hp2 : par.p2 ≠ 0) :
    demand_A par p1 = .ok (demandAval par p1) := by
  simp only [demand_A, demandAval, pydiv, if_neg hp, if_neg hp2]
  rfl

lemma demand_B_ok (par : EconPar) (p1 : ℝ) (hp : p1 ≠ 0) (hp2 : par.p2 ≠ 0) :
    demand_B par p1 = .ok (demandBval par p1) := by
  simp only [demand_B, demandBval, pydiv, if_neg hp, if_neg hp2]
  rfl

/-! ### Solver-backed operations

`scipy.optimize.minimize_scalar` / `minimize` are external; each call is
modelled by its reported result (a `success` flag, the argmin `x`, and the
objective value `fval` where the source reads `result.fun`).  The embedded
methods below translate the source's post-processing of such a result,
including which branch raises `ValueError` (`optimizationFailed`). -/

/-- Result of a scalar solver call (`minimize_scalar`): only `x` is read. -/
structure ScalarResult where
  success : Bool
  x : ℝ

/-- Result of a one-variable `minimize` call: `x[0]` and `fun` are read. -/
structure Vec1Result where
  success : Bool
  x : ℝ
  fval : ℝ

/-- Result of a two-variable `minimize` call: `x` and `fun` are read. -/
structure VecResult where
  success : Bool
  x : ℝ × ℝ
  fval : ℝ

/-- `find_market_clearing_price()`: returns `result.x` on success, raises
`ValueError` otherwise. -/
def find_market_clearing_price (result : ScalarResult) : Except EconError ℝ :=
  if result.success then .ok result.x else .error .optimizationFailed

/-- `maximize_consumer_A_utility_continuous()`: on success returns
`(result.x[0], 1 - demand_B(result.x[0]), -result.fun)`; raises `ValueError`
on non-convergence. -/
def maximize_consumer_A_utility_continuous (par : EconPar) (result : Vec1Result) :
    Except EconError (ℝ × (ℝ × ℝ) × ℝ) :=
  if result.success then do
    let xB ← demand_B par result.x
    .ok (result.x, (1 - xB.1, 1 - xB.2), -result.fval)
  else .error .optimizationFailed

/-- The box bounds `((0, 1), (0, 1))` passed to the solver in
`optimize_allocation_pareto_improvement`. -/
def pareto_bounds : (ℝ × ℝ) × (ℝ × ℝ) := ((0, 1), (0, 1))

/-- `optimize_allocation_pareto_improvement()`: on success returns
`(result.x, -result.fun)`; raises `ValueError` otherwise. -/
def optimize_allocation_pareto_improvement (result : VecResult) :
    Except EconError ((ℝ × ℝ) × ℝ) :=
  if result.success then .ok (result.x, -result.fval)
  else .error .optimizationFailed

/-- `maximize_utility_unrestricted()`: on success prints a summary of the
optimal allocation and returns `None`; on non-convergence prints
"Optimization was not successful." and likewise returns `None`.  Neither
branch raises.  The printed allocation is modelled as the `some` payload;
`none` models the failure message. -/
def maximize_utility_unrestricted (result : VecResult) :
    Except EconError (Option (ℝ × ℝ)) :=
  if result.success then .ok (some result.x) else .ok none

/-- The objective of `maximize_aggregate_utility`:
`-(utility_A(x1, x2) + utility_B(1 - x1, 1 - x2))`. -/
def aggregate_objective (par : EconPar) (x : ℝ × ℝ) : ℝ :=
  -(utility_A par x.1 x.2 + utility_B par (1 - x.1) (1 - x.2))

/-- The initial guess `x0 = [w1A, w2A]` of `maximize_aggregate_utility`. -/
def aggregate_x0 (par : EconPar) : ℝ × ℝ := (par.w1A, par.w2A)

/-- The box bounds `((0, 1), (0, 1))` of `maximize_aggregate_utility`. -/
def aggregate_bounds : (ℝ × ℝ) × (ℝ × ℝ) := ((0, 1), (0, 1))

/-- `maximize_aggregate_utility()`: on success returns
`(result.x, 1 - result.x, utility_A(result.x) + utility_B(1 - result.x))`;
raises `ValueError` otherwise. -/
def maximize_aggregate_utility (par : EconPar) (result : VecResult) :
    Except EconError ((ℝ × ℝ) × (ℝ × ℝ) × ℝ) :=
  if result.success then
    .ok (result.x, (1 - result.x.1, 1 - result.x.2),
      utility_A par result.x.1 result.x.2
        + utility_B par (1 - result.x.1) (1 - result.x.2))
  else .error .optimizationFailed

/-- The objective of `maximize_total_utility` (textually identical to
`aggregate_objective` in the source). -/
def total_objective (par : EconPar) (x : ℝ × ℝ) : ℝ :=
  -(utility_A par x.1 x.2 + utility_B par (1 - x.1) (1 - x.2))

/-- The initial guess `x0 = [w1A, w2A]` of `maximize_total_utility`. -/
def total_x0 (par : EconPar) : ℝ × ℝ := (par.w1A, par.w2A)

/-- The box bounds `((0, 1), (0, 1))` of `maximize_total_utility`. -/
def total_bounds : (ℝ × ℝ) × (ℝ × ℝ) := ((0, 1), (0, 1))

/-- `maximize_total_utility()`: duplicate of `maximize_aggregate_utility`
in the source, translated separately. -/
def maximize_total_utility (par : EconPar) (result : VecResult) :
    Except EconError ((ℝ × ℝ) × (ℝ × ℝ) × ℝ) :=
  if result.success then
    .ok (result.x, (1 - result.x.1, 1 - result.x.2),
      utility_A par result.x.1 result.x.2
        + utility_B par (1 - result.x.1) (1 - result.x.2))
  else .error .optimizationFailed

/-! ### The discrete maximization loop -/

/-- A value produced by Python's float `**`: an ordinary float, or a
complex number (negative base, non-integral exponent). -/
inductive PyVal where
  | real (v : ℝ)
  | complexVal

/-- Python float `x ** a`: raises `ZeroDivisionError` for `0 ** negative`;
yields a complex number when `x < 0` and `a` is not integral (Python
checks integrality of the float exponent); otherwise an ordinary real
power. -/
def pypow (x a : ℝ) : Except EconError PyVal :=
  if x = 0 ∧ a < 0 then .error .invalidArgument
  else if x < 0 ∧ Int.fract a ≠ 0 then .ok .complexVal
  else .ok (.real (x ^ a))

/-- The discrete loop's `utility_A(x1A_star, x2A_star)` fused with the
float comparison that immediately follows in the source: the two `**` are
evaluated left to right (either may raise `ZeroDivisionError`); if either
yields a complex number the product is complex and the comparison
`utility_A > max_utility` raises `TypeError`. -/
def utility_A_py (par : EconPar) (x1 x2 : ℝ) : Except EconError ℝ := do
  let v1 ← pypow x1 par.alpha
  let v2 ← pypow x2 (1 - par.alpha)
  match v1, v2 with
  | .real a, .real b => .ok (a * b)
  | _, _ => .error .typeError

lemma utility_A_py_ok (par : EconPar) (x1 x2 : ℝ) (h1 : 0 ≤ x1) (h2 : 0 ≤ x2)
    (ha : 0 ≤ par.alpha) (ha' : par.alpha ≤ 1) :
    utility_A_py par x1 x2 = .ok (utility_A par x1 x2) := by
  have ha'' : (0 : ℝ) ≤ 1 - par.alpha := by linarith
  have hc1 : ¬(x1 = 0 ∧ par.alpha < 0) := fun h => absurd h.2 (not_lt.mpr ha)
  have hc2 : ¬(x1 < 0 ∧ Int.fract par.alpha ≠ 0) := fun h =>
    absurd h.1 (not_lt.mpr h1)
  have hc3 : ¬(x2 = 0 ∧ 1 - par.alpha < 0) := fun h => absurd h.2 (not_lt.mpr ha'')
  have hc4 : ¬(x2 < 0 ∧ Int.fract (1 - par.alpha) ≠ 0) := fun h =>
    absurd h.1 (not_lt.mpr h2)
  simp only [utility_A_py, pypow, if_neg hc1, if_neg hc2, if_neg hc3, if_neg hc4,
    except_ok_bind]
  rfl

lemma utility_A_py_typeError (par : EconPar) (x1 x2 : ℝ) (h1 : x1 < 0)
    (hfr : Int.fract par.alpha ≠ 0) (h2 : 0 ≤ x2) (ha'' : 0 ≤ 1 - par.alpha) :
    utility_A_py par x1 x2 = .error .typeError := by
  have hc1 : ¬(x1 = 0 ∧ par.alpha < 0) := fun h => absurd h.1 (ne_of_lt h1)
  have hc3 : ¬(x2 = 0 ∧ 1 - par.alpha < 0) := fun h => absurd h.2 (not_lt.mpr ha'')
  have hc4 : ¬(x2 < 0 ∧ Int.fract (1 - par.alpha) ≠ 0) := fun h =>
    absurd h.1 (not_lt.mpr h2)
  simp only [utility_A_py, pypow, if_neg hc1, if_pos (And.intro h1 hfr),
    if_neg hc3, if_neg hc4, except_ok_bind]

/-- The loop body of `maximize_consumer_A_utility_discrete`: the running
best `(optimal_price, optimal_allocation_A, max_utility)` is `none` while
`max_utility` is still the initial `float('-inf')` (every real utility
beats it).  For each `p1` in turn, B's demand is computed (fallibly), A's
allocation is the complement, the utility is computed and compared
(`utility_A_py` — a complex utility raises `TypeError` in either
accumulator state, since the comparison against `max_utility` always
runs), and the best is replaced exactly when the new utility is strictly
greater. -/
def discreteBest (par : EconPar) :
    Option (ℝ × (ℝ × ℝ) × ℝ) → List ℝ → Except EconError (Option (ℝ × (ℝ × ℝ) × ℝ))
  | acc, [] => .ok acc
  | acc, p1 :: rest => do
      let xB ← demand_B par p1
      let x1A := 1 - xB.1
      let x2A := 1 - xB.2
      let u ← utility_A_py par x1A x2A
      match acc with
      | none => discreteBest par (some (p1, (x1A, x2A), u)) rest
      | some best =>
          if best.2.2 < u then discreteBest par (some (p1, (x1A, x2A), u)) rest
          else discreteBest par (some best) rest

/-- `maximize_consumer_A_utility_discrete(P1)`: runs the loop from the
initial state `(None, None, float('-inf'))` and returns the final triple;
`-inf` is `⊥ : EReal`. -/
def maximize_consumer_A_utility_discrete (par : EconPar) (P1 : List ℝ) :
    Except EconError (Option ℝ × Option (ℝ × ℝ) × EReal) := do
  let best ← discreteBest par none P1
  match best with
  | none => .ok (none, none, (⊥ : EReal))
  | some b => .ok (some b.1, some b.2.1, (b.2.2 : EReal))

/-- A's candidate allocation at price `p1`: the complement of B's demand. -/
def candAlloc (par : EconPar) (p1 : ℝ) : ℝ × ℝ :=
  (1 - (demandBval par p1).1, 1 - (demandBval par p1).2)

/-- A's utility at the candidate allocation for price `p1`. -/
def candU (par : EconPar) (p1 : ℝ) : ℝ :=
  utility_A par (candAlloc par p1).1 (candAlloc par p1).2

lemma discreteBest_some_cons (par : EconPar) (hp2 : par.p2 ≠ 0)
    (ha : 0 ≤ par.alpha) (ha' : par.alpha ≤ 1) (p1 : ℝ) (hp1 : p1 ≠ 0)
    (hf1 : 0 ≤ (candAlloc par p1).1) (hf2 : 0 ≤ (candAlloc par p1).2)
    (rest : List ℝ) (b : ℝ × (ℝ × ℝ) × ℝ) :
    discreteBest par (some b) (p1 :: rest)
      = (if b.2.2 < candU par p1 then
          discreteBest par (some (p1, candAlloc par p1, candU par p1)) rest
        else discreteBest par (some b) rest) := by
  rw [discreteBest, demand_B_ok par p1 hp1 hp2]
  simp only [except_ok_bind]
  rw [utility_A_py_ok par (1 - (demandBval par p1).1) (1 - (demandBval par p1).2)
    hf1 hf2 ha ha']
  rfl

lemma discreteBest_none_cons (par : EconPar) (hp2 : par.p2 ≠ 0)
    (ha : 0 ≤ par.alpha) (ha' : par.alpha ≤ 1) (p1 : ℝ) (hp1 : p1 ≠ 0)
    (hf1 : 0 ≤ (candAlloc par p1).1) (hf2 : 0 ≤ (candAlloc par p1).2)
    (rest : List ℝ) :
    discreteBest par none (p1 :: rest)
      = discreteBest par (some (p1, candAlloc par p1, candU par p1)) rest := by
  rw [discreteBest, demand_B_ok par p1 hp1 hp2]
  simp only [except_ok_bind]
  rw [utility_A_py_ok par (1 - (demandBval par p1).1) (1 - (demandBval par p1).2)
    hf1 hf2 ha ha']
  rfl

/-- Loop invariant of `discreteBest`: starting from a consistent best `b`,
the loop returns a consistent best `r` that (weakly) dominates `b` and
every element of the remaining list, and either the best never changed or
the final best sits in the list strictly above everything before it. -/
lemma discreteBest_sound (par : EconPar) (hp2 : par.p2 ≠ 0)
    (ha : 0 ≤ par.alpha) (ha' : par.alpha ≤ 1) :
    ∀ l : List ℝ,
      (∀ q ∈ l, q ≠ 0 ∧ 0 ≤ (candAlloc par q).1 ∧ 0 ≤ (candAlloc par q).2) →
      ∀ b : ℝ × (ℝ × ℝ) × ℝ,
      b.2.1 = candAlloc par b.1 → b.2.2 = candU par b.1 →
      ∃ r, discreteBest par (some b) l = .ok (some r)
        ∧ r.2.1 = candAlloc par r.1 ∧ r.2.2 = candU par r.1
        ∧ b.2.2 ≤ r.2.2 ∧ (∀ q ∈ l, candU par q ≤ r.2.2)
        ∧ (r = b ∨ ∃ l1 l2, l = l1 ++ r.1 :: l2 ∧ b.2.2 < r.2.2
            ∧ ∀ q ∈ l1, candU par q < r.2.2) := by
  intro l
  induction l with
  | nil =>
    intro _ b hb1 hb2
    exact ⟨b, rfl, hb1, hb2, le_refl _, by simp, Or.inl rfl⟩
  | cons p1 rest ih =>
    intro hl b hb1 hb2
    have hp1 : p1 ≠ 0 := (hl p1 (List.mem_cons_self p1 rest)).1
    have hf1 : 0 ≤ (candAlloc par p1).1 := (hl p1 (List.mem_cons_self p1 rest)).2.1
    have hf2 : 0 ≤ (candAlloc par p1).2 := (hl p1 (List.mem_cons_self p1 rest)).2.2
    have hrest : ∀ q ∈ rest, q ≠ 0 ∧ 0 ≤ (candAlloc par q).1
        ∧ 0 ≤ (candAlloc par q).2 := fun q hq => hl q (List.mem_cons_of_mem p1 hq)
    rw [discreteBest_some_cons par hp2 ha ha' p1 hp1 hf1 hf2 rest b]
    by_cases hcase : b.2.2 < candU par p1
    · rw [if_pos hcase]
      obtain ⟨r, heq, hr1, hr2, hble, hall, hdisj⟩ :=
        ih hrest (p1, candAlloc par p1, candU par p1) rfl rfl
      refine ⟨r, heq, hr1, hr2, le_of_lt (lt_of_lt_of_le hcase hble), ?_, ?_⟩
      · intro q hq
        rcases List.mem_cons.mp hq with h | h
        · subst h; exact hble
        · exact hall q h
      · right
        rcases hdisj with h | ⟨l1, l2, hsplit, hblt, hfirst⟩
        · refine ⟨[], rest, ?_, ?_, by simp⟩
          · rw [h]
            rfl
          · rw [h]
            exact hcase
        · refine ⟨p1 :: l1, l2, by rw [hsplit]; rfl, lt_trans hcase hblt, ?_⟩
          intro q hq
          rcases List.mem_cons.mp hq with h | h
          · subst h; exact hblt
          · exact hfirst q h
    · rw [if_neg hcase]
      have hle' : candU par p1 ≤ b.2.2 := not_lt.mp hcase
      obtain ⟨r, heq, hr1, hr2, hble, hall, hdisj⟩ := ih hrest b hb1 hb2
      refine ⟨r, heq, hr1, hr2, hble, ?_, ?_⟩
      · intro q hq
        rcases List.mem_cons.mp hq with h | h
        · subst h; exact le_trans hle' hble
        · exact hall q h
      · rcases hdisj with h | ⟨l1, l2, hsplit, hblt, hfirst⟩
        · exact Or.inl h
        · refine Or.inr ⟨p1 :: l1, l2, by rw [hsplit]; rfl, hblt, ?_⟩
          intro q hq
          rcases List.mem_cons.mp hq with h | h
          · subst h; exact lt_of_le_of_lt hle' hblt
          · exact hfirst q h

/-! ### Claim theorems -/

/-- Claim C1: for every spot>0, strike>0, sigma>0, T>0 and rate,
`black_scholes` with the standard normal CDF returns
`spot·Φ(d1) − strike·e^(−rate·T)·Φ(d2)` for a call and
`strike·e^(−rate·T)·Φ(−d2) − spot·Φ(−d1)` for a put, where
`d1 = (ln(spot/strike) + (rate + 0.5·sigma²)·T)/(sigma·√T)` and
`d2 = d1 − sigma·√T`. -/
theorem black_scholes_closed_form (S K r sigma T : ℝ)
    (hS : 0 < S) (hK : 0 < K) (hsig : 0 < sigma) (hT : 0 < T) :
    ∀ d1 d2 : ℝ,
      d1 = (Real.log (S / K) + (r + 0.5 * sigma ^ 2) * T) / (sigma * Real.sqrt T) →
      d2 = d1 - sigma * Real.sqrt T →
      black_scholes stdNormalCDF S K r sigma T "call"
          = .ok (S * stdNormalCDF d1 - K * Real.exp (-r * T) * stdNormalCDF d2)
        ∧ black_scholes stdNormalCDF S K r sigma T "put"
          = .ok (K * Real.exp (-r * T) * stdNormalCDF (-d2)
              - S * stdNormalCDF (-d1)) := by
  intro d1 d2 hd1 hd2
  subst hd2
  subst hd1
  constructor
  · simp [black_scholes]
  · simp [black_scholes]

/-- Witness for C1 at `S = K = sigma = T = 1`, `r = 0` (there `d1 = 0.5`
and `d2 = -0.5`). -/
theorem black_scholes_closed_form_witness :
    (0 : ℝ) < 1
    ∧ (0.5 : ℝ) = (Real.log (1 / 1) + (0 + 0.5 * 1 ^ 2) * 1) / (1 * Real.sqrt 1)
    ∧ (-0.5 : ℝ) = 0.5 - 1 * Real.sqrt 1
    ∧ (black_scholes stdNormalCDF 1 1 0 1 1 "call"
        = .ok (1 * stdNormalCDF 0.5 - 1 * Real.exp (-0 * 1) * stdNormalCDF (-0.5))
      ∧ black_scholes stdNormalCDF 1 1 0 1 1 "put"
        = .ok (1 * Real.exp (-0 * 1) * stdNormalCDF (-(-0.5))
            - 1 * stdNormalCDF (-0.5))) :=
  ⟨by norm_num,
   by rw [Real.sqrt_one]; norm_num,
   by rw [Real.sqrt_one]; norm_num,
   black_scholes_closed_form 1 1 0 1 1 (by norm_num) (by norm_num) (by norm_num)
     (by norm_num) 0.5 (-0.5)
     (by rw [Real.sqrt_one]; norm_num)
     (by rw [Real.sqrt_one]; norm_num)⟩

/-- Claim C2: for all spot>0, strike>0, sigma>0, T>0 and any rate, the call
and put prices returned by `black_scholes` satisfy put-call parity:
call − put = spot − strike·e^(−rate·T). -/
theorem black_scholes_put_call_parity (S K r sigma T : ℝ)
    (hS : 0 < S) (hK : 0 < K) (hsig : 0 < sigma) (hT : 0 < T) :
    ∃ c p : ℝ, black_scholes stdNormalCDF S K r sigma T "call" = .ok c
      ∧ black_scholes stdNormalCDF S K r sigma T "put" = .ok p
      ∧ c - p = S - K * Real.exp (-r * T) := by
  refine ⟨S * stdNormalCDF ((Real.log (S / K) + (r + 0.5 * sigma ^ 2) * T)
        / (sigma * Real.sqrt T))
      - K * Real.exp (-r * T)
        * stdNormalCDF ((Real.log (S / K) + (r + 0.5 * sigma ^ 2) * T)
            / (sigma * Real.sqrt T) - sigma * Real.sqrt T),
    K * Real.exp (-r * T)
        * stdNormalCDF (-((Real.log (S / K) + (r + 0.5 * sigma ^ 2) * T)
            / (sigma * Real.sqrt T) - sigma * Real.sqrt T))
      - S * stdNormalCDF (-((Real.log (S / K) + (r + 0.5 * sigma ^ 2) * T)
            / (sigma * Real.sqrt T))), ?_, ?_, ?_⟩
  · simp [black_scholes]
  · simp [black_scholes]
  · rw [stdNormalCDF_neg, stdNormalCDF_neg]
    ring

/-- Witness for C2 at `S = K = sigma = T = 1`, `r = 0`. -/
theorem black_scholes_put_call_parity_witness :
    (0 : ℝ) < 1
    ∧ ∃ c p : ℝ, black_scholes stdNormalCDF 1 1 0 1 1 "call" = .ok c
      ∧ black_scholes stdNormalCDF 1 1 0 1 1 "put" = .ok p
      ∧ c - p = 1 - 1 * Real.exp (-0 * 1) :=
  ⟨by norm_num,
   black_scholes_put_call_parity 1 1 0 1 1 (by norm_num) (by norm_num)
     (by norm_num) (by norm_num)⟩

/-- Claim C9: `demand_A` at `p1 = 0` fails (Python raises
`ZeroDivisionError` on `income_A / p1`, the design's `InvalidArgument`
kind) and never returns an ordinary finite allocation. -/
theorem demand_A_zero_price_error (w1A w2A : ℝ) :
    demand_A (mkEcon w1A w2A) 0 = .error .invalidArgument := by
  simp only [demand_A, pydiv, if_pos rfl]
  rfl

/-- Helper shared by C6 and C7: all four demand components are
non-negative for endowment shares in `[0,1]` and a positive price. -/
lemma demand_components_nonneg (w1A w2A p1 : ℝ)
    (h1 : 0 ≤ w1A) (h1' : w1A ≤ 1) (h2 : 0 ≤ w2A) (h2' : w2A ≤ 1) (hp : 0 < p1) :
    0 ≤ (demandAval (mkEcon w1A w2A) p1).1
    ∧ 0 ≤ (demandAval (mkEcon w1A w2A) p1).2
    ∧ 0 ≤ (demandBval (mkEcon w1A w2A) p1).1
    ∧ 0 ≤ (demandBval (mkEcon w1A w2A) p1).2 := by
  have hIA : 0 ≤ w1A * p1 + w2A * 1 :=
    add_nonneg (mul_nonneg h1 hp.le) (by linarith)
  have hIB : 0 ≤ (1 - w1A) * p1 + (1 - w2A) * 1 :=
    add_nonneg (mul_nonneg (by linarith) hp.le) (by linarith)
  simp only [demandAval, demandBval, mkEcon]
  refine ⟨?_, ?_, ?_, ?_⟩
  · exact mul_nonneg (by norm_num) (div_nonneg hIA hp.le)
  · exact mul_nonneg (by norm_num) (div_nonneg hIA (by norm_num))
  · exact mul_nonneg (by norm_num) (div_nonneg hIB hp.le)
  · exact mul_nonneg (by norm_num) (div_nonneg hIB (by norm_num))

/-- Claim C6: for every `p1 > 0` and construction parameters
`w1A, w2A ∈ [0,1]`, both `demand_A(p1)` and `demand_B(p1)` return a pair
of non-negative quantities. -/
theorem demand_nonneg (w1A w2A p1 : ℝ)
    (h1 : 0 ≤ w1A) (h1' : w1A ≤ 1) (h2 : 0 ≤ w2A) (h2' : w2A ≤ 1) (hp : 0 < p1) :
    ∃ xA xB : ℝ × ℝ, demand_A (mkEcon w1A w2A) p1 = .ok xA
      ∧ demand_B (mkEcon w1A w2A) p1 = .ok xB
      ∧ 0 ≤ xA.1 ∧ 0 ≤ xA.2 ∧ 0 ≤ xB.1 ∧ 0 ≤ xB.2 := by
  have hp2 : (mkEcon w1A w2A).p2 ≠ 0 := by norm_num [mkEcon]
  obtain ⟨hA1, hA2, hB1, hB2⟩ := demand_components_nonneg w1A w2A p1 h1 h1' h2 h2' hp
  exact ⟨demandAval (mkEcon w1A w2A) p1, demandBval (mkEcon w1A w2A) p1,
    demand_A_ok _ _ hp.ne' hp2, demand_B_ok _ _ hp.ne' hp2, hA1, hA2, hB1, hB2⟩

/-- Witness for C6 at the default endowment and `p1 = 1`. -/
theorem demand_nonneg_witness :
    ((0 : ℝ) ≤ 0.8 ∧ (0.8 : ℝ) ≤ 1 ∧ (0 : ℝ) ≤ 0.3 ∧ (0.3 : ℝ) ≤ 1 ∧ (0 : ℝ) < 1)
    ∧ ∃ xA xB : ℝ × ℝ, demand_A (mkEcon 0.8 0.3) 1 = .ok xA
      ∧ demand_B (mkEcon 0.8 0.3) 1 = .ok xB
      ∧ 0 ≤ xA.1 ∧ 0 ≤ xA.2 ∧ 0 ≤ xB.1 ∧ 0 ≤ xB.2 :=
  ⟨by norm_num,
   demand_nonneg 0.8 0.3 1 (by norm_num) (by norm_num) (by norm_num) (by norm_num)
     (by norm_num)⟩

/-- Claim C10: each consumer's demanded bundle costs exactly their
endowment income: `p1·x1A* + p2·x2A* = w1A·p1 + w2A·p2` and
`p1·x1B* + p2·x2B* = (1−w1A)·p1 + (1−w2A)·p2` (with `p2 = 1` as set by the
constructor). -/
theorem demand_budget_exhaustion (w1A w2A p1 : ℝ) (hp : 0 < p1) :
    ∃ xA xB : ℝ × ℝ, demand_A (mkEcon w1A w2A) p1 = .ok xA
      ∧ demand_B (mkEcon w1A w2A) p1 = .ok xB
      ∧ p1 * xA.1 + 1 * xA.2 = w1A * p1 + w2A * 1
      ∧ p1 * xB.1 + 1 * xB.2 = (1 - w1A) * p1 + (1 - w2A) * 1 := by
  have hp2 : (mkEcon w1A w2A).p2 ≠ 0 := by norm_num [mkEcon]
  refine ⟨demandAval (mkEcon w1A w2A) p1, demandBval (mkEcon w1A w2A) p1,
    demand_A_ok _ _ hp.ne' hp2, demand_B_ok _ _ hp.ne' hp2, ?_, ?_⟩
  · simp only [demandAval, mkEcon]
    field_simp
    ring
  · simp only [demandBval, mkEcon]
    field_simp
    ring

/-- Witness for C10 at the default endowment and `p1 = 1`. -/
theorem demand_budget_exhaustion_witness :
    (0 : ℝ) < 1
    ∧ ∃ xA xB : ℝ × ℝ, demand_A (mkEcon 0.8 0.3) 1 = .ok xA
      ∧ demand_B (mkEcon 0.8 0.3) 1 = .ok xB
      ∧ 1 * xA.1 + 1 * xA.2 = 0.8 * 1 + 0.3 * 1
      ∧ 1 * xB.1 + 1 * xB.2 = (1 - 0.8) * 1 + (1 - 0.3) * 1 :=
  ⟨by norm_num, demand_budget_exhaustion 0.8 0.3 1 (by norm_num)⟩

/-- Counterexample to claim C3: the candidate list `[0.5]` is non-empty
and all its candidates are positive, yet at the default endowment the
source crashes instead of returning a maximizer: B's demand at `p1 = 0.5`
is `(16/15, 4/15)`, so A's first component is `1 − 16/15 = −1/15 < 0`,
`(−1/15) ** (1/3)` yields a complex number, and the comparison
`utility_A > max_utility` raises `TypeError`. -/
theorem maximize_discrete_crash_counterexample :
    (0 : ℝ) < 0.5
    ∧ maximize_consumer_A_utility_discrete (mkEcon 0.8 0.3) [(0.5 : ℝ)]
      = .error .typeError := by
  refine ⟨by norm_num, ?_⟩
  have hfr : Int.fract ((mkEcon 0.8 0.3).alpha) ≠ 0 := by
    have h13 : (mkEcon 0.8 0.3).alpha = 1 / 3 := rfl
    rw [h13, Int.fract_eq_self.mpr (by norm_num)]
    norm_num
  have hneg : 1 - (demandBval (mkEcon 0.8 0.3) 0.5).1 < 0 := by
    norm_num [demandBval, mkEcon]
  have hok : (0 : ℝ) ≤ 1 - (demandBval (mkEcon 0.8 0.3) 0.5).2 := by
    norm_num [demandBval, mkEcon]
  have hU : utility_A_py (mkEcon 0.8 0.3) (1 - (demandBval (mkEcon 0.8 0.3) 0.5).1)
      (1 - (demandBval (mkEcon 0.8 0.3) 0.5).2) = .error .typeError :=
    utility_A_py_typeError _ _ _ hneg hfr hok (by norm_num [mkEcon])
  unfold maximize_consumer_A_utility_discrete
  rw [discreteBest, demand_B_ok _ _ (by norm_num) (by norm_num [mkEcon])]
  simp only [except_ok_bind]
  rw [hU]
  rfl

/-- Claim C3 as amended: on a non-empty list of positive candidate prices
each of which induces a non-negative allocation for A (both components of
`(1 − x1B*, 1 − x2B*)` are `≥ 0` — otherwise Python's `**` on the negative
base yields a complex number and the comparison raises `TypeError`),
`maximize_consumer_A_utility_discrete` returns the candidate maximizing
A's utility of the complement of B's demand, together with that allocation
and utility, ties broken by first occurrence in iteration order. -/
theorem maximize_discrete_argmax (w1A w2A : ℝ) (P1 : List ℝ)
    (hne : P1 ≠ []) (hpos : ∀ p ∈ P1, 0 < p)
    (hfeas : ∀ p ∈ P1, 0 ≤ (candAlloc (mkEcon w1A w2A) p).1
      ∧ 0 ≤ (candAlloc (mkEcon w1A w2A) p).2) :
    ∃ (p : ℝ) (a : ℝ × ℝ) (u : ℝ),
      maximize_consumer_A_utility_discrete (mkEcon w1A w2A) P1
        = .ok (some p, some a, (u : EReal))
      ∧ p ∈ P1
      ∧ a = candAlloc (mkEcon w1A w2A) p
      ∧ u = candU (mkEcon w1A w2A) p
      ∧ (∀ q ∈ P1, candU (mkEcon w1A w2A) q ≤ u)
      ∧ ∃ l1 l2, P1 = l1 ++ p :: l2
          ∧ ∀ q ∈ l1, candU (mkEcon w1A w2A) q < u := by
  obtain ⟨p0, rest, rfl⟩ := List.exists_cons_of_ne_nil hne
  have hp2 : (mkEcon w1A w2A).p2 ≠ 0 := by norm_num [mkEcon]
  have ha : 0 ≤ (mkEcon w1A w2A).alpha := by norm_num [mkEcon]
  have ha' : (mkEcon w1A w2A).alpha ≤ 1 := by norm_num [mkEcon]
  have hp0 : p0 ≠ 0 := (hpos p0 (List.mem_cons_self p0 rest)).ne'
  have hf0 := hfeas p0 (List.mem_cons_self p0 rest)
  have hrest : ∀ q ∈ rest, q ≠ 0 ∧ 0 ≤ (candAlloc (mkEcon w1A w2A) q).1
      ∧ 0 ≤ (candAlloc (mkEcon w1A w2A) q).2 := fun q hq =>
    ⟨(hpos q (List.mem_cons_of_mem p0 hq)).ne',
     (hfeas q (List.mem_cons_of_mem p0 hq)).1,
     (hfeas q (List.mem_cons_of_mem p0 hq)).2⟩
  obtain ⟨r, heq, hr1, hr2, hble, hall, hdisj⟩ :=
    discreteBest_sound (mkEcon w1A w2A) hp2 ha ha' rest hrest
      (p0, candAlloc (mkEcon w1A w2A) p0, candU (mkEcon w1A w2A) p0) rfl rfl
  have hmain : maximize_consumer_A_utility_discrete (mkEcon w1A w2A) (p0 :: rest)
      = .ok (some r.1, some r.2.1, (r.2.2 : EReal)) := by
    unfold maximize_consumer_A_utility_discrete
    rw [discreteBest_none_cons (mkEcon w1A w2A) hp2 ha ha' p0 hp0 hf0.1 hf0.2 rest,
      heq]
    rfl
  have hsplit : ∃ l1 l2, p0 :: rest = l1 ++ r.1 :: l2
      ∧ ∀ q ∈ l1, candU (mkEcon w1A w2A) q < r.2.2 := by
    rcases hdisj with h | ⟨l1, l2, hs, hblt, hfirst⟩
    · refine ⟨[], rest, ?_, by simp⟩
      rw [h]
      rfl
    · refine ⟨p0 :: l1, l2, ?_, ?_⟩
      · rw [hs]
        rfl
      · intro q hq
        rcases List.mem_cons.mp hq with h | h
        · subst h
          exact hblt
        · exact hfirst q h
  refine ⟨r.1, r.2.1, r.2.2, hmain, ?_, hr1, hr2, ?_, hsplit⟩
  · obtain ⟨l1, l2, hs, _⟩ := hsplit
    rw [hs]
    exact List.mem_append_right l1 (List.mem_cons_self r.1 l2)
  · intro q hq
    rcases List.mem_cons.mp hq with h | h
    · subst h
      exact hble
    · exact hall q h

/-- Witness for C3 on the one-element candidate list `[1]` at the default
endowment (there A's induced allocation is `(0.4, 0.7)`, feasible). -/
theorem maximize_discrete_argmax_witness :
    ([(1 : ℝ)] ≠ []) ∧ (∀ p ∈ [(1 : ℝ)], 0 < p)
    ∧ (∀ p ∈ [(1 : ℝ)], 0 ≤ (candAlloc (mkEcon 0.8 0.3) p).1
        ∧ 0 ≤ (candAlloc (mkEcon 0.8 0.3) p).2)
    ∧ ∃ (p : ℝ) (a : ℝ × ℝ) (u : ℝ),
      maximize_consumer_A_utility_discrete (mkEcon 0.8 0.3) [1]
        = .ok (some p, some a, (u : EReal))
      ∧ p ∈ [(1 : ℝ)]
      ∧ a = candAlloc (mkEcon 0.8 0.3) p
      ∧ u = candU (mkEcon 0.8 0.3) p
      ∧ (∀ q ∈ [(1 : ℝ)], candU (mkEcon 0.8 0.3) q ≤ u)
      ∧ ∃ l1 l2, [(1 : ℝ)] = l1 ++ p :: l2
          ∧ ∀ q ∈ l1, candU (mkEcon 0.8 0.3) q < u :=
  ⟨by simp, by norm_num, by norm_num [candAlloc, demandBval, mkEcon],
   maximize_discrete_argmax 0.8 0.3 [1] (by simp) (by norm_num)
     (by norm_num [candAlloc, demandBval, mkEcon])⟩

/-- Counterexample to claim C4: on the empty candidate list the source
does not raise `InvalidArgument`; it returns the sentinel triple
`(None, None, float('-inf'))` as a normal value. -/
theorem maximize_discrete_empty_counterexample :
    maximize_consumer_A_utility_discrete (mkEcon 0.8 0.3) []
      = .ok (none, none, (⊥ : EReal)) := rfl

/-- Claim C4 as amended: calling `maximize_consumer_A_utility_discrete`
with an empty candidate list returns normally with the sentinel
`(None, None, -inf)` (no error is raised). -/
theorem maximize_discrete_empty_sentinel (par : EconPar) :
    maximize_consumer_A_utility_discrete par []
      = .ok (none, none, (⊥ : EReal)) := rfl

/-- Counterexample to claim C5: `maximize_utility_unrestricted` does not
surface `OptimizationFailed` when the solver reports non-convergence; it
prints a message and returns `None` (a normal return). -/
theorem maximize_utility_unrestricted_counterexample :
    maximize_utility_unrestricted { success := false, x := (0, 0), fval := 0 }
      = .ok none := rfl

/-- Claim C5 as amended: every solver-invoking operation other than
`maximize_utility_unrestricted` surfaces `OptimizationFailed` to the
caller when the solver reports non-convergence (and none retries);
`maximize_utility_unrestricted` instead swallows the failure, printing a
message and returning `None`. -/
theorem solver_failure_surfacing (par : EconPar) (rs : ScalarResult)
    (r1 : Vec1Result) (rv : VecResult)
    (hs : rs.success = false) (h1 : r1.success = false)
    (hv : rv.success = false) :
    find_market_clearing_price rs = .error .optimizationFailed
    ∧ maximize_consumer_A_utility_continuous par r1 = .error .optimizationFailed
    ∧ optimize_allocation_pareto_improvement rv = .error .optimizationFailed
    ∧ maximize_aggregate_utility par rv = .error .optimizationFailed
    ∧ maximize_total_utility par rv = .error .optimizationFailed
    ∧ maximize_utility_unrestricted rv = .ok none := by
  refine ⟨?_, ?_, ?_, ?_, ?_, ?_⟩ <;>
    simp [find_market_clearing_price, maximize_consumer_A_utility_continuous,
      optimize_allocation_pareto_improvement, maximize_aggregate_utility,
      maximize_total_utility, maximize_utility_unrestricted, hs, h1, hv]

/-- Witness for C5 with concrete non-converged solver results. -/
theorem solver_failure_surfacing_witness :
    ((ScalarResult.mk false 0).success = false
      ∧ (Vec1Result.mk false 0 0).success = false
      ∧ (VecResult.mk false (0, 0) 0).success = false)
    ∧ (find_market_clearing_price (ScalarResult.mk false 0)
        = .error .optimizationFailed
      ∧ maximize_consumer_A_utility_continuous (mkEcon 0.8 0.3)
          (Vec1Result.mk false 0 0) = .error .optimizationFailed
      ∧ optimize_allocation_pareto_improvement (VecResult.mk false (0, 0) 0)
        = .error .optimizationFailed
      ∧ maximize_aggregate_utility (mkEcon 0.8 0.3) (VecResult.mk false (0, 0) 0)
        = .error .optimizationFailed
      ∧ maximize_total_utility (mkEcon 0.8 0.3) (VecResult.mk false (0, 0) 0)
        = .error .optimizationFailed
      ∧ maximize_utility_unrestricted (VecResult.mk false (0, 0) 0)
        = .ok none) :=
  ⟨⟨rfl, rfl, rfl⟩,
   solver_failure_surfacing (mkEcon 0.8 0.3) (ScalarResult.mk false 0)
     (Vec1Result.mk false 0 0) (VecResult.mk false (0, 0) 0) rfl rfl rfl⟩

/-- Counterexample to claim C7: at the default endowment and `p1 = 10`,
`demand_A` returns `(83/300, 83/15)` whose second component exceeds 1, so
demand allocations do not always lie in `[0,1]`. -/
theorem demand_exceeds_one_counterexample :
    demand_A (mkEcon 0.8 0.3) 10 = .ok (83 / 300, 83 / 15)
    ∧ ¬((83 : ℝ) / 15 ≤ 1) := by
  constructor
  · rw [demand_A_ok _ _ (by norm_num) (by norm_num [mkEcon])]
    simp only [demandAval, mkEcon]
    norm_num
  · norm_num

/-- Claim C7 as amended: demand components are only guaranteed
non-negative for `p1 > 0` (they can exceed 1); the `[0,1]` invariant is
imposed only as the box bounds the optimization calls pass to the
solver. -/
theorem demand_nonneg_and_box_bounds (w1A w2A p1 : ℝ)
    (h1 : 0 ≤ w1A) (h1' : w1A ≤ 1) (h2 : 0 ≤ w2A) (h2' : w2A ≤ 1) (hp : 0 < p1) :
    (∃ xA xB : ℝ × ℝ, demand_A (mkEcon w1A w2A) p1 = .ok xA
      ∧ demand_B (mkEcon w1A w2A) p1 = .ok xB
      ∧ 0 ≤ xA.1 ∧ 0 ≤ xA.2 ∧ 0 ≤ xB.1 ∧ 0 ≤ xB.2)
    ∧ pareto_bounds = ((0, 1), (0, 1))
    ∧ aggregate_bounds = ((0, 1), (0, 1))
    ∧ total_bounds = ((0, 1), (0, 1)) := by
  have hp2 : (mkEcon w1A w2A).p2 ≠ 0 := by norm_num [mkEcon]
  obtain ⟨hA1, hA2, hB1, hB2⟩ := demand_components_nonneg w1A w2A p1 h1 h1' h2 h2' hp
  exact ⟨⟨demandAval (mkEcon w1A w2A) p1, demandBval (mkEcon w1A w2A) p1,
    demand_A_ok _ _ hp.ne' hp2, demand_B_ok _ _ hp.ne' hp2, hA1, hA2, hB1, hB2⟩,
    rfl, rfl, rfl⟩

/-- Witness for the amended C7 at the default endowment and `p1 = 1`. -/
theorem demand_nonneg_and_box_bounds_witness :
    ((0 : ℝ) ≤ 0.8 ∧ (0.8 : ℝ) ≤ 1 ∧ (0 : ℝ) ≤ 0.3 ∧ (0.3 : ℝ) ≤ 1 ∧ (0 : ℝ) < 1)
    ∧ ((∃ xA xB : ℝ × ℝ, demand_A (mkEcon 0.8 0.3) 1 = .ok xA
        ∧ demand_B (mkEcon 0.8 0.3) 1 = .ok xB
        ∧ 0 ≤ xA.1 ∧ 0 ≤ xA.2 ∧ 0 ≤ xB.1 ∧ 0 ≤ xB.2)
      ∧ pareto_bounds = ((0, 1), (0, 1))
      ∧ aggregate_bounds = ((0, 1), (0, 1))
      ∧ total_bounds = ((0, 1), (0, 1))) :=
  ⟨by norm_num,
   demand_nonneg_and_box_bounds 0.8 0.3 1 (by norm_num) (by norm_num)
     (by norm_num) (by norm_num) (by norm_num)⟩

/-- Claim C8: `maximize_aggregate_utility` and `maximize_total_utility`
have the identical contract: same objective
`utility_A(x1,x2) + utility_B(1−x1,1−x2)` (negated for the minimizer),
same seed at the endowment, same `[0,1]²` box bounds, and equal results —
in particular they fail identically on non-convergence. -/
theorem aggregate_total_identical (par : EconPar) :
    (∀ x : ℝ × ℝ, aggregate_objective par x = total_objective par x)
    ∧ (∀ x : ℝ × ℝ, aggregate_objective par x
        = -(utility_A par x.1 x.2 + utility_B par (1 - x.1) (1 - x.2)))
    ∧ aggregate_x0 par = total_x0 par
    ∧ aggregate_x0 par = (par.w1A, par.w2A)
    ∧ aggregate_bounds = total_bounds
    ∧ (∀ result : VecResult,
        maximize_aggregate_utility par result = maximize_total_utility par result) :=
  ⟨fun _ => rfl, fun _ => rfl, rfl, rfl, rfl, fun _ => rfl⟩
